import Mathlib

/-!
# GPGPU flow-field particles: host-side pipeline of `src/script.js`

A shallow embedding of the host program: the compute-domain side, the encoding of the
base-particles texture, the UV / size fill loop, the resize handler and the frame loop.

Indices and counts are natural numbers.  The loops are embedded twice.  In the first
embedding numbers are exact rationals (`JSNum.num`) or `JSNum.nan`, and a store keeps the
value as it is: this is the arithmetic in which the index and addressing properties are
stated.  The second embedding of the UV / size fill loop (`fillLoopRounded`) follows the
arithmetic of the program: `(x + 0.5) / size` is computed in binary64 and the store into
a `Float32Array` rounds it to binary32.
-/

namespace FlowField

/-! ## Numbers and typed arrays -/

/-- A number held by a typed array: a rational value, or NaN (what storing
`undefined` into a `Float32Array` yields). -/
inductive JSNum where
  | num (q : ℚ)
  | nan
  deriving DecidableEq, Repr

/-- A `Float32Array`: a fixed-length sequence of numbers. -/
abbrev Float32Array := List JSNum

namespace Float32Array

/-- The constructor `new Float32Array(n)`: `n` entries, all zero. -/
def alloc (n : Nat) : Float32Array := List.replicate n (JSNum.num 0)

/-- The read `a[i]` converted to a number: an index outside the array reads
`undefined`, which is NaN as a number. -/
def read (a : Float32Array) (i : Nat) : JSNum :=
  match a[i]? with
  | some v => v
  | none => JSNum.nan

/-- The store `a[i] = v` of a value kept as it is (a number read from another
`Float32Array`, or an exact rational): an index outside the array is ignored and the
length never changes.  The rounding of a stored double is in `RoundedArray.store`. -/
def write (a : Float32Array) (i : Nat) (v : JSNum) : Float32Array :=
  if i < a.length then a.set i v else a

end Float32Array

/-! ## Compute-domain side (script.js, line 108) -/

/-- The value of `Math.ceil(Math.sqrt(count))` on a natural number `count`:
the integer square root, plus one when `count` is not a perfect square. -/
def ceilSqrt (count : Nat) : Nat :=
  if Nat.sqrt count * Nat.sqrt count = count then Nat.sqrt count else Nat.sqrt count + 1

/-- The field `gpgpu.size`. -/
def gpgpuSize (count : Nat) : Nat := ceilSqrt count

/-! ## Base-particles texture encoding loop (script.js, lines 118-130) -/

/-- One iteration of the loop body, for the loop variable `i`. -/
def encodeBody (position : Float32Array) (data : Float32Array) (i : Nat) : Float32Array :=
  let i3 := i * 3
  let i4 := i * 4
  let d0 := Float32Array.write data (i4 + 0) (Float32Array.read position (i3 + 0))
  let d1 := Float32Array.write d0 (i4 + 1) (Float32Array.read position (i3 + 1))
  let d2 := Float32Array.write d1 (i4 + 2) (Float32Array.read position (i3 + 2))
  Float32Array.write d2 (i4 + 3) (JSNum.num 0)

/-- The values of the loop variable `i` that `for (let i = 0; i < count; i++)` visits. -/
def encodeIterations (count : Nat) : List Nat := List.range count

/-- The loop `for (let i = 0; i < count; i++)` over the texture buffer `data`. -/
def encodeLoop (count : Nat) (position : Float32Array) (data : Float32Array) : Float32Array :=
  (encodeIterations count).foldl (encodeBody position) data

/-! ## Particle UV / size fill loop (script.js, lines 165-183) -/

/-- The two arrays the fill loop stores to, and the number of `Math.random()` calls
made so far. -/
structure FillState where
  particlesUvArray : Float32Array
  sizesArray : Float32Array
  randomCalls : Nat
  deriving DecidableEq, Repr

/-- The index `i` of the loop body at loop variables `y` and `x`. -/
def texelIndex (size y x : Nat) : Nat := y * size + x

/-- The value `uvX` (from `x`) or `uvY` (from `y`): `(c + 0.5) / size`.  The body only
runs with `c < size`, so the divisor is never zero there. -/
def uvCoord (size c : Nat) : ℚ := ((c : ℚ) + 0.5) / (size : ℚ)

/-- One iteration of the inner loop body, at loop variables `y` and `x`; `random k` is
the value returned by the call of `Math.random()` that follows `k` earlier calls. -/
def fillBody (size : Nat) (random : Nat → ℚ) (y x : Nat) (st : FillState) : FillState :=
  let i := texelIndex size y x
  let i2 := i * 2
  let uvX := uvCoord size x
  let uvY := uvCoord size y
  let uv0 := Float32Array.write st.particlesUvArray (i2 + 0) (JSNum.num uvX)
  let uv1 := Float32Array.write uv0 (i2 + 1) (JSNum.num uvY)
  { particlesUvArray := uv1
    sizesArray := Float32Array.write st.sizesArray i (JSNum.num (random st.randomCalls))
    randomCalls := st.randomCalls + 1 }

/-- The inner loop `for (let x = 0; x < size; x++)` at a fixed `y`. -/
def fillRow (size : Nat) (random : Nat → ℚ) (y : Nat) (st : FillState) : FillState :=
  (List.range size).foldl (fun acc x => fillBody size random y x acc) st

/-- The outer loop `for (let y = 0; y < size; y++)`. -/
def fillLoop (size : Nat) (random : Nat → ℚ) (st : FillState) : FillState :=
  (List.range size).foldl (fun acc y => fillRow size random y acc) st

/-- The pairs `(y, x)` of loop variables at which the nested loop runs its body, in
order. -/
def fillIterations (size : Nat) : List (Nat × Nat) :=
  (List.range size).flatMap (fun y => (List.range size).map (fun x => (y, x)))

/-- The fill loop run on the two freshly constructed arrays
`new Float32Array(count * 2)` and `new Float32Array(count)`. -/
def fillArrays (count : Nat) (random : Nat → ℚ) : FillState :=
  fillLoop (gpgpuSize count) random
    { particlesUvArray := Float32Array.alloc (count * 2)
      sizesArray := Float32Array.alloc count
      randomCalls := 0 }

/-- The vertex attribute `aParticlesUv` of vertex `i`: `BufferAttribute(array, 2)` gives
vertex `i` the entries `2 * i` and `2 * i + 1` (script.js, lines 187-190). -/
def vertexUv (uv : Float32Array) (i : Nat) : Option (ℚ × ℚ) :=
  match uv[2 * i]?, uv[2 * i + 1]? with
  | some (JSNum.num u), some (JSNum.num v) => some (u, v)
  | _, _ => none

/-- What holds of the fill-loop state `st` once the body has run for the texel indices
below `n`, having started from `st0`. -/
structure FillInv (size : Nat) (random : Nat → ℚ) (st0 : FillState) (n : Nat)
    (st : FillState) : Prop where
  calls : st.randomCalls = st0.randomCalls + n
  uvLength : st.particlesUvArray.length = st0.particlesUvArray.length
  sizesLength : st.sizesArray.length = st0.sizesArray.length
  uvX : ∀ j, j < n → j * 2 < st0.particlesUvArray.length →
    st.particlesUvArray[j * 2]? = some (JSNum.num (uvCoord size (j % size)))
  uvY : ∀ j, j < n → j * 2 + 1 < st0.particlesUvArray.length →
    st.particlesUvArray[j * 2 + 1]? = some (JSNum.num (uvCoord size (j / size)))
  uvRest : ∀ k, n * 2 ≤ k → st.particlesUvArray[k]? = st0.particlesUvArray[k]?
  sizes : ∀ j, j < n → j < st0.sizesArray.length →
    st.sizesArray[j]? = some (JSNum.num (random (st0.randomCalls + j)))
  sizesRest : ∀ k, n ≤ k → st.sizesArray[k]? = st0.sizesArray[k]?

/-! ## Binary floating point -/

/-- The integer nearest to `q`; of two equally near integers, the even one. -/
def roundHalfEven (q : ℚ) : ℤ :=
  if q - (⌊q⌋ : ℚ) < 1 / 2 then ⌊q⌋
  else if 1 / 2 < q - (⌊q⌋ : ℚ) then ⌊q⌋ + 1
  else if ⌊q⌋ % 2 = 0 then ⌊q⌋
  else ⌊q⌋ + 1

/-- The exponent of the last place of `q` in a binary format with `p` significant bits
and least normal exponent `emin`: the numbers of the format near `q` are the integer
multiples of two to this power.  Below the normal range the exponent stays at `emin`. -/
def lastPlace (p : Nat) (emin : ℤ) (q : ℚ) : ℤ :=
  max (Int.log 2 |q|) emin - ((p : ℤ) - 1)

/-- Rounding of `q` to the nearest number of the binary format with `p` significant
bits and exponents from `emin` to `emax`, ties to even; `none` stands for a non-finite
result (the rounded magnitude reaches two to the power `emax + 1`). -/
def roundBinary (p : Nat) (emin emax : ℤ) (q : ℚ) : Option ℚ :=
  let r : ℚ :=
    (roundHalfEven (q / (2 : ℚ) ^ lastPlace p emin q) : ℚ) * (2 : ℚ) ^ lastPlace p emin q
  if |r| < (2 : ℚ) ^ (emax + 1) then some r else none

/-- Rounding to binary64, the format of every number the script computes. -/
def toDouble (q : ℚ) : Option ℚ := roundBinary 53 (-1022) 1023 q

/-- Rounding to binary32, the format of the entries of a `Float32Array`. -/
def toFloat32 (q : ℚ) : Option ℚ := roundBinary 24 (-126) 127 q

/-- The quotient `a / b` of two doubles, as a double; `none` stands for a non-finite
result. -/
def doubleDiv (a b : ℚ) : Option ℚ := if b = 0 then none else toDouble (a / b)

/-- The value `uvX` (from `x`) or `uvY` (from `y`) as the script computes it: the sum
`c + 0.5` as a double, divided by `size` as a double; a non-finite sum gives a
non-finite quotient. -/
def uvCoordDouble (size c : Nat) : Option ℚ :=
  (toDouble ((c : ℚ) + 0.5)).bind (fun a => doubleDiv a (size : ℚ))

/-- A `Float32Array` as the program holds it: every entry is a binary32 number, `none`
standing for a non-finite one. -/
abbrev RoundedArray := List (Option ℚ)

namespace RoundedArray

/-- The constructor `new Float32Array(n)`: `n` entries, all zero. -/
def alloc (n : Nat) : RoundedArray := List.replicate n (some 0)

/-- The store `a[i] = v` of a double `v`: the value is rounded to binary32, a
non-finite value stays non-finite; an index outside the array is ignored and the length
never changes. -/
def store (a : RoundedArray) (i : Nat) (v : Option ℚ) : RoundedArray :=
  if i < a.length then a.set i (v.bind toFloat32) else a

end RoundedArray

/-! ## The fill loop in the arithmetic of the program (script.js, lines 165-183) -/

/-- The two arrays the fill loop stores to, and the number of `Math.random()` calls
made so far. -/
structure RoundedFillState where
  particlesUvArray : RoundedArray
  sizesArray : RoundedArray
  randomCalls : Nat
  deriving DecidableEq, Repr

/-- One iteration of the inner loop body, at loop variables `y` and `x`; `random k` is
the double returned by the call of `Math.random()` that follows `k` earlier calls. -/
def fillBodyRounded (size : Nat) (random : Nat → ℚ) (y x : Nat) (st : RoundedFillState) :
    RoundedFillState :=
  let i := texelIndex size y x
  let i2 := i * 2
  let uvX := uvCoordDouble size x
  let uvY := uvCoordDouble size y
  let uv0 := RoundedArray.store st.particlesUvArray (i2 + 0) uvX
  let uv1 := RoundedArray.store uv0 (i2 + 1) uvY
  { particlesUvArray := uv1
    sizesArray := RoundedArray.store st.sizesArray i (some (random st.randomCalls))
    randomCalls := st.randomCalls + 1 }

/-- The inner loop `for (let x = 0; x < size; x++)` at a fixed `y`. -/
def fillRowRounded (size : Nat) (random : Nat → ℚ) (y : Nat) (st : RoundedFillState) :
    RoundedFillState :=
  (List.range size).foldl (fun acc x => fillBodyRounded size random y x acc) st

/-- The outer loop `for (let y = 0; y < size; y++)`. -/
def fillLoopRounded (size : Nat) (random : Nat → ℚ) (st : RoundedFillState) :
    RoundedFillState :=
  (List.range size).foldl (fun acc y => fillRowRounded size random y acc) st

/-- The fill loop run on the two freshly constructed arrays
`new Float32Array(count * 2)` and `new Float32Array(count)`. -/
def fillArraysRounded (count : Nat) (random : Nat → ℚ) : RoundedFillState :=
  fillLoopRounded (gpgpuSize count) random
    { particlesUvArray := RoundedArray.alloc (count * 2)
      sizesArray := RoundedArray.alloc count
      randomCalls := 0 }

/-- What holds of the UV array of the state `st` once the body has run for the texel
indices below `n`, having started from an array of `len` entries. -/
structure RoundedFillInv (size len n : Nat) (st : RoundedFillState) : Prop where
  uvLength : st.particlesUvArray.length = len
  uvX : ∀ j, j < n → j * 2 < len →
    st.particlesUvArray[j * 2]? = some ((uvCoordDouble size (j % size)).bind toFloat32)
  uvY : ∀ j, j < n → j * 2 + 1 < len →
    st.particlesUvArray[j * 2 + 1]? = some ((uvCoordDouble size (j / size)).bind toFloat32)

/-! ## The compute stage -/

/-- The two render targets of the ping-pong pair. -/
inductive Buffer where
  | first
  | second
  deriving DecidableEq, Repr

/-- The other target of the pair. -/
def Buffer.other : Buffer → Buffer
  | Buffer.first => Buffer.second
  | Buffer.second => Buffer.first

/-- Modelled from the spec: the state of the `GPUComputationRenderer` (a three.js
add-on, absent from the sources) for the single variable `uParticles`: the contents of
the two equally sized targets, which of them is the active one (the latest output, read
by the next pass), and the `uTime` uniform of the compute program. -/
structure Computation where
  firstTarget : Float32Array
  secondTarget : Float32Array
  current : Buffer
  uTime : ℚ
  deriving DecidableEq, Repr

namespace Computation

/-- The contents of one target. -/
def target (c : Computation) : Buffer → Float32Array
  | Buffer.first => c.firstTarget
  | Buffer.second => c.secondTarget

/-- The target the next compute pass writes: the currently inactive one. -/
def writeTarget (c : Computation) : Buffer := c.current.other

/-- Modelled from the spec: `init()` allocates two equally sized targets and seeds one,
the active one, with the encoder's initial texture; the other is a fresh allocation of
the same length. -/
def init (initial : Float32Array) : Computation :=
  { firstTarget := initial
    secondTarget := Float32Array.alloc initial.length
    current := Buffer.first
    uTime := 0 }

/-- Modelled from the spec: `compute()` runs the compute program on the active target
and the time uniform, writes the result to the inactive target, then flips the roles.
The program `shader` (gpgpu/particles.glsl, absent from the sources) is a parameter. -/
def compute (shader : ℚ → Float32Array → Float32Array) (c : Computation) : Computation :=
  let out := shader c.uTime (c.target c.current)
  match c.writeTarget with
  | Buffer.first => { c with firstTarget := out, current := Buffer.first }
  | Buffer.second => { c with secondTarget := out, current := Buffer.second }

/-- Modelled from the spec: `getCurrentRenderTarget(variable)` is the active target,
the output of the latest pass. -/
def getCurrentRenderTarget (c : Computation) : Buffer := c.current

end Computation

/-! ## Program state -/

/-- The browser window as the script reads it. -/
structure Window where
  innerWidth : ℚ
  innerHeight : ℚ
  devicePixelRatio : ℚ
  deriving DecidableEq, Repr

/-- The object `sizes` (script.js, lines 34-38). -/
structure Sizes where
  width : ℚ
  height : ℚ
  pixelRatio : ℚ
  deriving DecidableEq, Repr

/-- The quotient `a / b` of two numbers; `none` stands for the non-finite result of a
division by zero. -/
def jsDiv (a b : ℚ) : Option ℚ := if b = 0 then none else some (a / b)

/-- The mutable state of the script after its top-level code has run.
`projectionAspect` is the aspect ratio the camera projection matrix was last computed
from; `frame` is the contents of the texture that the latest draw call sampled through
`uParticlesTexture` (`none` before the first draw, or when the uniform is unset). -/
structure State where
  sizes : Sizes
  uResolution : ℚ × ℚ
  uSize : ℚ
  uParticlesTexture : Option Buffer
  cameraAspect : Option ℚ
  projectionAspect : Option ℚ
  rendererSize : ℚ × ℚ
  rendererPixelRatio : ℚ
  count : Nat
  gpgpuSize : Nat
  baseParticlesTexture : Float32Array
  gpgpu : Computation
  particlesUvArray : Float32Array
  sizesArray : Float32Array
  drawRange : Nat × Nat
  previousTime : ℚ
  frame : Option Float32Array
  deriving DecidableEq, Repr

/-- The initial `sizes` object (script.js, lines 34-38). -/
def initialSizes (w : Window) : Sizes :=
  { width := w.innerWidth
    height := w.innerHeight
    pixelRatio := min w.devicePixelRatio 2 }

/-- The top-level code of the script (lines 34-218) for a mesh of `count` vertices with
position array `position`; `texture` is the buffer returned by `createTexture()`. -/
def setup (w : Window) (count : Nat) (position texture : Float32Array)
    (random : Nat → ℚ) : State :=
  let sizes := initialSizes w
  let size := gpgpuSize count
  let base := encodeLoop count position texture
  let filled := fillArrays count random
  { sizes := sizes
    uResolution := (sizes.width * sizes.pixelRatio, sizes.height * sizes.pixelRatio)
    uSize := 7 / 100
    uParticlesTexture := none
    cameraAspect := jsDiv sizes.width sizes.height
    projectionAspect := jsDiv sizes.width sizes.height
    rendererSize := (sizes.width, sizes.height)
    rendererPixelRatio := sizes.pixelRatio
    count := count
    gpgpuSize := size
    baseParticlesTexture := base
    gpgpu := Computation.init base
    particlesUvArray := filled.particlesUvArray
    sizesArray := filled.sizesArray
    drawRange := (0, count)
    previousTime := 0
    frame := none }

/-! ## Resize handler (script.js, lines 40-59) -/

/-- The listener of the `resize` event, run when the window reads `w`. -/
def resize (w : Window) (s : State) : State :=
  let sizes : Sizes :=
    { width := w.innerWidth
      height := w.innerHeight
      pixelRatio := min w.devicePixelRatio 2 }
  { s with
    sizes := sizes
    uResolution := (sizes.width * sizes.pixelRatio, sizes.height * sizes.pixelRatio)
    cameraAspect := jsDiv sizes.width sizes.height
    projectionAspect := jsDiv sizes.width sizes.height
    rendererSize := (sizes.width, sizes.height)
    rendererPixelRatio := sizes.pixelRatio }

/-! ## Frame loop (script.js, lines 238-259) -/

/-- The statement `gpgpu.particlesVariable.material.uniforms.uTime.value = elapsedTime`. -/
def setUTime (elapsedTime : ℚ) (s : State) : State :=
  { s with gpgpu := { s.gpgpu with uTime := elapsedTime } }

/-- The statement `gpgpu.computation.compute()`. -/
def computeStep (shader : ℚ → Float32Array → Float32Array) (s : State) : State :=
  { s with gpgpu := s.gpgpu.compute shader }

/-- The assignment of `getCurrentRenderTarget(...).texture` to the uniform
`uParticlesTexture`. -/
def rebind (s : State) : State :=
  { s with uParticlesTexture := some s.gpgpu.getCurrentRenderTarget }

/-- The draw call `renderer.render(scene, camera)`: the vertex stage samples the texture
that `uParticlesTexture` refers to at that moment. -/
def render (s : State) : State :=
  { s with frame := s.uParticlesTexture.map s.gpgpu.target }

/-- One run of `tick` at clock reading `elapsedTime`.  The orbit controls act on the
camera only, which is outside this state. -/
def tick (shader : ℚ → Float32Array → Float32Array) (elapsedTime : ℚ) (s : State) : State :=
  let s0 := { s with previousTime := elapsedTime }
  let s1 := setUTime elapsedTime s0
  let s2 := computeStep shader s1
  let s3 := rebind s2
  render s3

/-- The state after the ticks at the clock readings `times`, in order: every tick
schedules the next one with `requestAnimationFrame`. -/
def runTicks (shader : ℚ → Float32Array → Float32Array) (times : List ℚ) (s : State) : State :=
  times.foldl (fun acc t => tick shader t acc) s

/-- The texture after the compute program has been applied once per clock reading in
`times`, in order, starting from `initial`. -/
def simulate (shader : ℚ → Float32Array → Float32Array) (times : List ℚ)
    (initial : Float32Array) : Float32Array :=
  times.foldl (fun tex t => shader t tex) initial

/-! ## Facts about the embedding -/

theorem Float32Array.length_write (a : Float32Array) (i : Nat) (v : JSNum) :
    (Float32Array.write a i v).length = a.length := by
  unfold Float32Array.write
  split <;> simp

theorem Float32Array.getElem?_write (a : Float32Array) (i j : Nat) (v : JSNum) :
    (Float32Array.write a i v)[j]? = if i = j ∧ i < a.length then some v else a[j]? := by
  unfold Float32Array.write
  by_cases hi : i < a.length
  · by_cases hij : i = j
    · subst hij
      simp [hi]
    · simp [hi, hij, List.getElem?_set]
  · simp [hi]

theorem Float32Array.write_of_le (a : Float32Array) (i : Nat) (v : JSNum)
    (h : a.length ≤ i) : Float32Array.write a i v = a := by
  unfold Float32Array.write
  rw [if_neg (by omega)]

theorem Float32Array.getElem?_read (a : Float32Array) (i : Nat) (h : i < a.length) :
    a[i]? = some (Float32Array.read a i) := by
  unfold Float32Array.read
  rw [List.getElem?_eq_getElem h]

theorem Float32Array.length_alloc (n : Nat) : (Float32Array.alloc n).length = n := by
  simp [Float32Array.alloc]

theorem encodeBody_length (position data : Float32Array) (i : Nat) :
    (encodeBody position data i).length = data.length := by
  simp [encodeBody, Float32Array.length_write]

theorem encodeBody_getElem? (position data : Float32Array) (i j : Nat)
    (h : i * 4 + 3 < data.length) :
    (encodeBody position data i)[j]? =
      if j = i * 4 + 3 then some (JSNum.num 0)
      else if j = i * 4 + 2 then some (Float32Array.read position (i * 3 + 2))
      else if j = i * 4 + 1 then some (Float32Array.read position (i * 3 + 1))
      else if j = i * 4 then some (Float32Array.read position (i * 3))
      else data[j]? := by
  simp only [encodeBody, Float32Array.getElem?_write, Float32Array.length_write, Nat.add_zero]
  by_cases h3 : j = i * 4 + 3
  · simp [h3, h]
  · by_cases h2 : j = i * 4 + 2
    · subst h2
      have : i * 4 + 2 < data.length := by omega
      simp [this]
    · by_cases h1 : j = i * 4 + 1
      · subst h1
        have : i * 4 + 1 < data.length := by omega
        simp [this]
      · by_cases h0 : j = i * 4
        · subst h0
          have : i * 4 < data.length := by omega
          simp [this]
        · have e3 : ¬ (i * 4 + 3 = j) := fun e => h3 e.symm
          have e2 : ¬ (i * 4 + 2 = j) := fun e => h2 e.symm
          have e1 : ¬ (i * 4 + 1 = j) := fun e => h1 e.symm
          have e0 : ¬ (i * 4 = j) := fun e => h0 e.symm
          simp [h3, h2, h1, h0, e3, e2, e1, e0]

/-- The state of the texture buffer after the first `n` iterations of the encoding loop. -/
theorem encodeLoop_invariant (position data : Float32Array) (n : Nat)
    (h : n * 4 ≤ data.length) :
    (encodeLoop n position data).length = data.length
    ∧ (∀ i, i < n →
        (encodeLoop n position data)[i * 4]? = some (Float32Array.read position (i * 3))
        ∧ (encodeLoop n position data)[i * 4 + 1]?
            = some (Float32Array.read position (i * 3 + 1))
        ∧ (encodeLoop n position data)[i * 4 + 2]?
            = some (Float32Array.read position (i * 3 + 2))
        ∧ (encodeLoop n position data)[i * 4 + 3]? = some (JSNum.num 0))
    ∧ (∀ j, n * 4 ≤ j → (encodeLoop n position data)[j]? = data[j]?) := by
  induction n with
  | zero => simp [encodeLoop, encodeIterations]
  | succ n ih =>
    obtain ⟨hlen, hin, hout⟩ := ih (by omega)
    have hstep : encodeLoop (n + 1) position data
        = encodeBody position (encodeLoop n position data) n := by
      simp [encodeLoop, encodeIterations, List.range_succ, List.foldl_append]
    have hb : n * 4 + 3 < (encodeLoop n position data).length := by omega
    rw [hstep]
    refine ⟨by rw [encodeBody_length, hlen], ?_, ?_⟩
    · intro i hi
      rcases Nat.lt_succ_iff_lt_or_eq.mp hi with hlt | heq
      · obtain ⟨a0, a1, a2, a3⟩ := hin i hlt
        refine ⟨?_, ?_, ?_, ?_⟩
        · rw [encodeBody_getElem? _ _ _ _ hb, if_neg (by omega), if_neg (by omega),
            if_neg (by omega), if_neg (by omega), a0]
        · rw [encodeBody_getElem? _ _ _ _ hb, if_neg (by omega), if_neg (by omega),
            if_neg (by omega), if_neg (by omega), a1]
        · rw [encodeBody_getElem? _ _ _ _ hb, if_neg (by omega), if_neg (by omega),
            if_neg (by omega), if_neg (by omega), a2]
        · rw [encodeBody_getElem? _ _ _ _ hb, if_neg (by omega), if_neg (by omega),
            if_neg (by omega), if_neg (by omega), a3]
      · subst heq
        refine ⟨?_, ?_, ?_, ?_⟩
        · rw [encodeBody_getElem? _ _ _ _ hb, if_neg (by omega), if_neg (by omega),
            if_neg (by omega), if_pos rfl]
        · rw [encodeBody_getElem? _ _ _ _ hb, if_neg (by omega), if_neg (by omega),
            if_pos rfl]
        · rw [encodeBody_getElem? _ _ _ _ hb, if_neg (by omega), if_pos rfl]
        · rw [encodeBody_getElem? _ _ _ _ hb, if_pos rfl]
    · intro j hj
      rw [encodeBody_getElem? _ _ _ _ hb, if_neg (by omega), if_neg (by omega),
        if_neg (by omega), if_neg (by omega)]
      exact hout j (by omega)

theorem fillBody_uv_getElem? (size : Nat) (random : Nat → ℚ) (y x : Nat) (st : FillState)
    (k : Nat) :
    (fillBody size random y x st).particlesUvArray[k]? =
      if texelIndex size y x * 2 + 1 = k
          ∧ texelIndex size y x * 2 + 1 < st.particlesUvArray.length then
        some (JSNum.num (uvCoord size y))
      else if texelIndex size y x * 2 = k
          ∧ texelIndex size y x * 2 < st.particlesUvArray.length then
        some (JSNum.num (uvCoord size x))
      else st.particlesUvArray[k]? := by
  simp [fillBody, Float32Array.getElem?_write, Float32Array.length_write]

theorem fillBody_sizes_getElem? (size : Nat) (random : Nat → ℚ) (y x : Nat) (st : FillState)
    (k : Nat) :
    (fillBody size random y x st).sizesArray[k]? =
      if texelIndex size y x = k ∧ texelIndex size y x < st.sizesArray.length then
        some (JSNum.num (random st.randomCalls))
      else st.sizesArray[k]? := by
  simp [fillBody, Float32Array.getElem?_write]

theorem fillBody_lengths (size : Nat) (random : Nat → ℚ) (y x : Nat) (st : FillState) :
    (fillBody size random y x st).particlesUvArray.length = st.particlesUvArray.length
    ∧ (fillBody size random y x st).sizesArray.length = st.sizesArray.length
    ∧ (fillBody size random y x st).randomCalls = st.randomCalls + 1 := by
  simp [fillBody, Float32Array.length_write]

/-- One run of the body at the next texel index keeps the invariant. -/
theorem FillInv.step {size : Nat} {random : Nat → ℚ} {st0 st : FillState} {n y x : Nat}
    (hx : x < size) (hn : texelIndex size y x = n) (inv : FillInv size random st0 n st) :
    FillInv size random st0 (n + 1) (fillBody size random y x st) := by
  have hmod : n % size = x := by
    rw [← hn, texelIndex, Nat.mul_comm, Nat.mul_add_mod, Nat.mod_eq_of_lt hx]
  have hdiv : n / size = y := by
    rw [← hn, texelIndex, Nat.mul_comm, Nat.mul_add_div (by omega), Nat.div_eq_of_lt hx]
    rfl
  obtain ⟨l1, l2, l3⟩ := fillBody_lengths size random y x st
  refine ⟨?_, ?_, ?_, ?_, ?_, ?_, ?_, ?_⟩
  · rw [l3, inv.calls]; omega
  · rw [l1, inv.uvLength]
  · rw [l2, inv.sizesLength]
  · intro j hj hlen
    rw [fillBody_uv_getElem?, hn, inv.uvLength, if_neg (by omega)]
    rcases Nat.lt_succ_iff_lt_or_eq.mp hj with hlt | heq
    · rw [if_neg (by omega)]
      exact inv.uvX j hlt hlen
    · subst heq
      rw [if_pos ⟨rfl, hlen⟩, hmod]
  · intro j hj hlen
    rw [fillBody_uv_getElem?, hn, inv.uvLength]
    rcases Nat.lt_succ_iff_lt_or_eq.mp hj with hlt | heq
    · rw [if_neg (by omega), if_neg (by omega)]
      exact inv.uvY j hlt hlen
    · subst heq
      rw [if_pos ⟨rfl, hlen⟩, hdiv]
  · intro k hk
    rw [fillBody_uv_getElem?, hn, if_neg (by omega), if_neg (by omega)]
    exact inv.uvRest k (by omega)
  · intro j hj hlen
    rw [fillBody_sizes_getElem?, hn, inv.sizesLength]
    rcases Nat.lt_succ_iff_lt_or_eq.mp hj with hlt | heq
    · rw [if_neg (by omega)]
      exact inv.sizes j hlt hlen
    · subst heq
      rw [if_pos ⟨rfl, hlen⟩, inv.calls]
  · intro k hk
    rw [fillBody_sizes_getElem?, hn, if_neg (by omega)]
    exact inv.sizesRest k (by omega)

theorem FillInv.init (size : Nat) (random : Nat → ℚ) (st0 : FillState) :
    FillInv size random st0 0 st0 :=
  ⟨rfl, rfl, rfl, fun _ h => absurd h (Nat.not_lt_zero _),
    fun _ h => absurd h (Nat.not_lt_zero _), fun _ _ => rfl,
    fun _ h => absurd h (Nat.not_lt_zero _), fun _ _ => rfl⟩

/-- The first `m` iterations of the inner loop at row `y`. -/
theorem FillInv.rowPart {size : Nat} {random : Nat → ℚ} {st0 st : FillState} {y : Nat}
    (inv : FillInv size random st0 (y * size) st) (m : Nat) (hm : m ≤ size) :
    FillInv size random st0 (y * size + m)
      ((List.range m).foldl (fun acc x => fillBody size random y x acc) st) := by
  induction m with
  | zero => simpa using inv
  | succ m ih =>
    rw [List.range_succ, List.foldl_append]
    exact FillInv.step (by omega) rfl (ih (by omega))

theorem FillInv.row {size : Nat} {random : Nat → ℚ} {st0 st : FillState} {y : Nat}
    (inv : FillInv size random st0 (y * size) st) :
    FillInv size random st0 ((y + 1) * size) (fillRow size random y st) := by
  have := FillInv.rowPart inv size (le_refl size)
  rw [Nat.succ_mul]
  exact this

/-- The first `r` iterations of the outer loop. -/
theorem FillInv.rows (size : Nat) (random : Nat → ℚ) (st0 : FillState) (r : Nat) :
    FillInv size random st0 (r * size)
      ((List.range r).foldl (fun acc y => fillRow size random y acc) st0) := by
  induction r with
  | zero => simpa using FillInv.init size random st0
  | succ r ih =>
    rw [List.range_succ, List.foldl_append]
    exact FillInv.row ih

theorem fillLoop_inv (size : Nat) (random : Nat → ℚ) (st0 : FillState) :
    FillInv size random st0 (size * size) (fillLoop size random st0) :=
  FillInv.rows size random st0 size

theorem ceilSqrt_sq_ge (n : Nat) : n ≤ ceilSqrt n * ceilSqrt n := by
  unfold ceilSqrt
  split
  · next h => exact le_of_eq h.symm
  · exact le_of_lt (Nat.lt_succ_sqrt n)

theorem ceilSqrt_pos {n : Nat} (h : 0 < n) : 0 < ceilSqrt n := by
  rcases Nat.eq_zero_or_pos (ceilSqrt n) with h0 | h0
  · have := ceilSqrt_sq_ge n
    rw [h0] at this
    omega
  · exact h0

theorem ceilSqrt_pred_sq_lt {n : Nat} (h : 0 < n) :
    (ceilSqrt n - 1) * (ceilSqrt n - 1) < n := by
  unfold ceilSqrt
  split
  · next hsq =>
    have hpos : 0 < Nat.sqrt n := Nat.sqrt_pos.mpr h
    have h1 : (Nat.sqrt n - 1) * (Nat.sqrt n - 1) < Nat.sqrt n * Nat.sqrt n :=
      Nat.mul_self_lt_mul_self (by omega)
    omega
  · next hsq =>
    have := Nat.sqrt_le n
    simp only [Nat.add_sub_cancel]
    omega

theorem ceilSqrt_le_of_le_sq {n t : Nat} (h : n ≤ t * t) : ceilSqrt n ≤ t := by
  have hle : Nat.sqrt n ≤ t := by
    have := Nat.sqrt_le_sqrt h
    rwa [Nat.sqrt_eq] at this
  unfold ceilSqrt
  split
  · exact hle
  · next hsq =>
    rcases Nat.lt_or_ge (Nat.sqrt n) t with hlt | hge
    · exact hlt
    · have ht : t = Nat.sqrt n := le_antisymm hge hle
      have := Nat.sqrt_le n
      rw [ht] at h
      exact absurd (le_antisymm this h) hsq

theorem ceilSqrt_eq_of_bounds {n s : Nat} (hlo : (s - 1) * (s - 1) < n) (hhi : n ≤ s * s) :
    ceilSqrt n = s := by
  apply le_antisymm (ceilSqrt_le_of_le_sq hhi)
  by_contra hlt
  have h1 : ceilSqrt n ≤ s - 1 := by omega
  have h2 : ceilSqrt n * ceilSqrt n ≤ (s - 1) * (s - 1) := Nat.mul_le_mul h1 h1
  have := ceilSqrt_sq_ge n
  omega

/-- The integer model agrees with the ceiling of the real square root. -/
theorem ceilSqrt_eq_ceil_real_sqrt (n : Nat) : ceilSqrt n = ⌈Real.sqrt (n : ℝ)⌉₊ := by
  symm
  rcases Nat.eq_zero_or_pos n with h0 | hpos
  · subst h0
    simp [ceilSqrt]
  · have hs := ceilSqrt_pos hpos
    rw [Nat.ceil_eq_iff (by omega)]
    constructor
    · rw [Real.lt_sqrt (by positivity)]
      have := ceilSqrt_pred_sq_lt hpos
      have h2 : (((ceilSqrt n - 1) * (ceilSqrt n - 1) : ℕ) : ℝ) < (n : ℝ) := by
        exact_mod_cast this
      push_cast at h2 ⊢
      nlinarith [h2]
    · rw [Real.sqrt_le_left (by positivity)]
      have := ceilSqrt_sq_ge n
      have h2 : (n : ℝ) ≤ ((ceilSqrt n * ceilSqrt n : ℕ) : ℝ) := by exact_mod_cast this
      push_cast at h2
      nlinarith [h2]

theorem fillArrays_inv (count : Nat) (random : Nat → ℚ) :
    FillInv (gpgpuSize count) random
      { particlesUvArray := Float32Array.alloc (count * 2)
        sizesArray := Float32Array.alloc count
        randomCalls := 0 }
      (gpgpuSize count * gpgpuSize count) (fillArrays count random) :=
  fillLoop_inv _ _ _

theorem fillArrays_lengths (count : Nat) (random : Nat → ℚ) :
    (fillArrays count random).particlesUvArray.length = count * 2
    ∧ (fillArrays count random).sizesArray.length = count := by
  have inv := fillArrays_inv count random
  exact ⟨by rw [inv.uvLength, Float32Array.length_alloc],
    by rw [inv.sizesLength, Float32Array.length_alloc]⟩

theorem fillArrays_uv (count : Nat) (random : Nat → ℚ) (i : Nat) (hi : i < count) :
    (fillArrays count random).particlesUvArray[2 * i]?
        = some (JSNum.num (uvCoord (gpgpuSize count) (i % gpgpuSize count)))
    ∧ (fillArrays count random).particlesUvArray[2 * i + 1]?
        = some (JSNum.num (uvCoord (gpgpuSize count) (i / gpgpuSize count))) := by
  have inv := fillArrays_inv count random
  have hcap : i < gpgpuSize count * gpgpuSize count :=
    lt_of_lt_of_le hi (ceilSqrt_sq_ge count)
  have e : 2 * i = i * 2 := Nat.mul_comm 2 i
  rw [e]
  exact ⟨inv.uvX i hcap (by rw [Float32Array.length_alloc]; omega),
    inv.uvY i hcap (by rw [Float32Array.length_alloc]; omega)⟩

theorem fillArrays_vertexUv (count : Nat) (random : Nat → ℚ) (i : Nat) (hi : i < count) :
    vertexUv (fillArrays count random).particlesUvArray i
      = some (uvCoord (gpgpuSize count) (i % gpgpuSize count),
          uvCoord (gpgpuSize count) (i / gpgpuSize count)) := by
  obtain ⟨hx, hy⟩ := fillArrays_uv count random i hi
  simp only [vertexUv, hx, hy]

theorem floor_uvCoord_mul (size c : Nat) (hs : 0 < size) :
    ⌊uvCoord size c * (size : ℚ)⌋ = (c : ℤ) := by
  have hs' : (size : ℚ) ≠ 0 := by exact_mod_cast (Nat.pos_iff_ne_zero.mp hs)
  have e : uvCoord size c * (size : ℚ) = (c : ℚ) + 1 / 2 := by
    unfold uvCoord
    rw [div_mul_cancel₀ _ hs']
    norm_num
  rw [e, Int.floor_eq_iff]
  constructor
  · push_cast
    linarith
  · push_cast
    linarith

theorem foldl_flatMap_pairs {β : Type} (f : Nat → Nat → β → β) (ys xs : List Nat) (b : β) :
    (ys.flatMap (fun y => xs.map (fun x => (y, x)))).foldl (fun acc p => f p.1 p.2 acc) b
      = ys.foldl (fun acc y => xs.foldl (fun acc2 x => f y x acc2) acc) b := by
  induction ys generalizing b with
  | nil => rfl
  | cons y ys ih =>
    simp only [List.flatMap_cons, List.foldl_append, List.foldl_cons, List.foldl_map]
    exact ih _

/-- The nested loop runs its body once per pair of `fillIterations`, in that order. -/
theorem fillLoop_eq_foldl_iterations (size : Nat) (random : Nat → ℚ) (st : FillState) :
    fillLoop size random st
      = (fillIterations size).foldl (fun acc p => fillBody size random p.1 p.2 acc) st := by
  unfold fillLoop fillIterations fillRow
  rw [foldl_flatMap_pairs (fun y x acc => fillBody size random y x acc)]

theorem mem_fillIterations (size y x : Nat) :
    (y, x) ∈ fillIterations size ↔ y < size ∧ x < size := by
  simp [fillIterations]

theorem roundHalfEven_eq (q : ℚ) (n : ℤ) (h : |q - (n : ℚ)| < 1 / 2) :
    roundHalfEven q = n := by
  rw [abs_lt] at h
  obtain ⟨h1, h2⟩ := h
  unfold roundHalfEven
  rcases le_or_lt (n : ℚ) q with hle | hlt
  · have hf : ⌊q⌋ = n := by
      rw [Int.floor_eq_iff]
      exact ⟨hle, by linarith⟩
    rw [hf, if_pos (by linarith)]
  · have hf : ⌊q⌋ = n - 1 := by
      rw [Int.floor_eq_iff]
      push_cast
      exact ⟨by linarith, by linarith⟩
    rw [hf]
    push_cast
    rw [if_neg (by linarith), if_pos (by linarith)]
    ring

theorem log_two_eq (q : ℚ) (e : ℤ) (hlo : (2 : ℚ) ^ e ≤ q) (hhi : q < (2 : ℚ) ^ (e + 1)) :
    Int.log 2 q = e := by
  have hq : 0 < q := lt_of_lt_of_le (by positivity) hlo
  have h1 : e ≤ Int.log 2 q :=
    (Int.zpow_le_iff_le_log (by norm_num) hq).mp (by exact_mod_cast hlo)
  have h2 : Int.log 2 q < e + 1 :=
    (Int.lt_zpow_iff_log_lt (by norm_num) hq).mp (by exact_mod_cast hhi)
  omega

/-- The value of a rounding, from the binade of `q` and the nearest multiple of the
last place. -/
theorem roundBinary_eq (p : Nat) (emin emax : ℤ) (q : ℚ) (e n : ℤ)
    (hlo : (2 : ℚ) ^ e ≤ q) (hhi : q < (2 : ℚ) ^ (e + 1)) (hemin : emin ≤ e)
    (hn : |q / (2 : ℚ) ^ (e - ((p : ℤ) - 1)) - (n : ℚ)| < 1 / 2)
    (hfin : |(n : ℚ) * (2 : ℚ) ^ (e - ((p : ℤ) - 1))| < (2 : ℚ) ^ (emax + 1)) :
    roundBinary p emin emax q = some ((n : ℚ) * (2 : ℚ) ^ (e - ((p : ℤ) - 1))) := by
  have hq : 0 < q := lt_of_lt_of_le (by positivity) hlo
  have hl : lastPlace p emin q = e - ((p : ℤ) - 1) := by
    unfold lastPlace
    rw [abs_of_pos hq, log_two_eq q e hlo hhi, max_eq_left hemin]
  unfold roundBinary
  simp only [hl]
  rw [roundHalfEven_eq _ n hn, if_pos hfin]

theorem RoundedArray.length_store (a : RoundedArray) (i : Nat) (v : Option ℚ) :
    (RoundedArray.store a i v).length = a.length := by
  unfold RoundedArray.store
  split <;> simp

theorem RoundedArray.getElem?_store (a : RoundedArray) (i j : Nat) (v : Option ℚ) :
    (RoundedArray.store a i v)[j]?
      = if i = j ∧ i < a.length then some (v.bind toFloat32) else a[j]? := by
  unfold RoundedArray.store
  by_cases hi : i < a.length
  · by_cases hij : i = j
    · subst hij
      simp [hi]
    · simp [hi, hij, List.getElem?_set]
  · simp [hi]

theorem RoundedArray.alloc_length (n : Nat) : (RoundedArray.alloc n).length = n := by
  simp [RoundedArray.alloc]

theorem fillBodyRounded_uv_getElem? (size : Nat) (random : Nat → ℚ) (y x : Nat)
    (st : RoundedFillState) (k : Nat) :
    (fillBodyRounded size random y x st).particlesUvArray[k]? =
      if texelIndex size y x * 2 + 1 = k
          ∧ texelIndex size y x * 2 + 1 < st.particlesUvArray.length then
        some ((uvCoordDouble size y).bind toFloat32)
      else if texelIndex size y x * 2 = k
          ∧ texelIndex size y x * 2 < st.particlesUvArray.length then
        some ((uvCoordDouble size x).bind toFloat32)
      else st.particlesUvArray[k]? := by
  simp [fillBodyRounded, RoundedArray.getElem?_store, RoundedArray.length_store]

theorem fillBodyRounded_uv_length (size : Nat) (random : Nat → ℚ) (y x : Nat)
    (st : RoundedFillState) :
    (fillBodyRounded size random y x st).particlesUvArray.length
      = st.particlesUvArray.length := by
  simp [fillBodyRounded, RoundedArray.length_store]

/-- One run of the body at the next texel index keeps the invariant. -/
theorem RoundedFillInv.roundedStep {size len n y x : Nat} {random : Nat → ℚ}
    {st : RoundedFillState} (hx : x < size) (hn : texelIndex size y x = n)
    (inv : RoundedFillInv size len n st) :
    RoundedFillInv size len (n + 1) (fillBodyRounded size random y x st) := by
  have hmod : n % size = x := by
    rw [← hn, texelIndex, Nat.mul_comm, Nat.mul_add_mod, Nat.mod_eq_of_lt hx]
  have hdiv : n / size = y := by
    rw [← hn, texelIndex, Nat.mul_comm, Nat.mul_add_div (by omega), Nat.div_eq_of_lt hx]
    rfl
  refine ⟨?_, ?_, ?_⟩
  · rw [fillBodyRounded_uv_length, inv.uvLength]
  · intro j hj hlen
    rw [fillBodyRounded_uv_getElem?, hn, inv.uvLength, if_neg (by omega)]
    rcases Nat.lt_succ_iff_lt_or_eq.mp hj with hlt | heq
    · rw [if_neg (by omega)]
      exact inv.uvX j hlt hlen
    · subst heq
      rw [if_pos ⟨rfl, hlen⟩, hmod]
  · intro j hj hlen
    rw [fillBodyRounded_uv_getElem?, hn, inv.uvLength]
    rcases Nat.lt_succ_iff_lt_or_eq.mp hj with hlt | heq
    · rw [if_neg (by omega), if_neg (by omega)]
      exact inv.uvY j hlt hlen
    · subst heq
      rw [if_pos ⟨rfl, hlen⟩, hdiv]

/-- The first `m` iterations of the inner loop at row `y`. -/
theorem RoundedFillInv.roundedRowPart {size len y : Nat} {random : Nat → ℚ}
    {st : RoundedFillState} (inv : RoundedFillInv size len (y * size) st) (m : Nat)
    (hm : m ≤ size) :
    RoundedFillInv size len (y * size + m)
      ((List.range m).foldl (fun acc x => fillBodyRounded size random y x acc) st) := by
  induction m with
  | zero => simpa using inv
  | succ m ih =>
    rw [List.range_succ, List.foldl_append]
    exact RoundedFillInv.roundedStep (by omega) rfl (ih (by omega))

/-- The first `r` iterations of the outer loop. -/
theorem RoundedFillInv.roundedRows (size : Nat) (random : Nat → ℚ) (st0 : RoundedFillState)
    (r : Nat) :
    RoundedFillInv size st0.particlesUvArray.length (r * size)
      ((List.range r).foldl (fun acc y => fillRowRounded size random y acc) st0) := by
  induction r with
  | zero =>
    exact ⟨rfl, fun _ h => absurd h (by simp), fun _ h => absurd h (by simp)⟩
  | succ r ih =>
    rw [List.range_succ, List.foldl_append, Nat.succ_mul]
    exact RoundedFillInv.roundedRowPart ih size (le_refl size)

theorem fillArraysRounded_uv (count : Nat) (random : Nat → ℚ) (i : Nat) (hi : i < count) :
    (fillArraysRounded count random).particlesUvArray[2 * i]?
        = some ((uvCoordDouble (gpgpuSize count) (i % gpgpuSize count)).bind toFloat32)
    ∧ (fillArraysRounded count random).particlesUvArray[2 * i + 1]?
        = some ((uvCoordDouble (gpgpuSize count) (i / gpgpuSize count)).bind toFloat32) := by
  have inv := RoundedFillInv.roundedRows (gpgpuSize count) random
    { particlesUvArray := RoundedArray.alloc (count * 2)
      sizesArray := RoundedArray.alloc count
      randomCalls := 0 } (gpgpuSize count)
  simp only [RoundedArray.alloc_length] at inv
  have hcap : i < gpgpuSize count * gpgpuSize count :=
    lt_of_lt_of_le hi (ceilSqrt_sq_ge count)
  have e : 2 * i = i * 2 := Nat.mul_comm 2 i
  rw [e]
  exact ⟨inv.uvX i hcap (by omega), inv.uvY i hcap (by omega)⟩

theorem toDouble_eq (q : ℚ) (e n : ℤ)
    (hlo : (2 : ℚ) ^ e ≤ q) (hhi : q < (2 : ℚ) ^ (e + 1)) (hemin : -1022 ≤ e)
    (hn : |q / (2 : ℚ) ^ (e - 52) - (n : ℚ)| < 1 / 2)
    (hfin : |(n : ℚ) * (2 : ℚ) ^ (e - 52)| < (2 : ℚ) ^ (1024 : ℤ)) :
    toDouble q = some ((n : ℚ) * (2 : ℚ) ^ (e - 52)) :=
  roundBinary_eq 53 (-1022) 1023 q e n hlo hhi hemin hn hfin

theorem toFloat32_eq (q : ℚ) (e n : ℤ)
    (hlo : (2 : ℚ) ^ e ≤ q) (hhi : q < (2 : ℚ) ^ (e + 1)) (hemin : -126 ≤ e)
    (hn : |q / (2 : ℚ) ^ (e - 23) - (n : ℚ)| < 1 / 2)
    (hfin : |(n : ℚ) * (2 : ℚ) ^ (e - 23)| < (2 : ℚ) ^ (128 : ℤ)) :
    toFloat32 q = some ((n : ℚ) * (2 : ℚ) ^ (e - 23)) :=
  roundBinary_eq 24 (-126) 127 q e n hlo hhi hemin hn hfin

/-- In a texture of side 3 the coordinate of column 0 is the double nearest to one
sixth, and the array holds the binary32 number nearest to that double. -/
theorem stored_uvCoord_three_zero :
    (uvCoordDouble 3 0).bind toFloat32 = some (11184811 / 67108864) := by
  have h1 : toDouble (((0 : ℕ) : ℚ) + 0.5) = some (1 / 2) := by
    rw [toDouble_eq _ (-1) 4503599627370496 (by norm_num) (by norm_num) (by norm_num)
      (by norm_num [abs_lt]) (by norm_num [abs_lt])]
    norm_num
  have h2 : toDouble ((1 / 2 : ℚ) / ((3 : ℕ) : ℚ))
      = some (6004799503160661 / 36028797018963968) := by
    rw [toDouble_eq _ (-3) 6004799503160661 (by norm_num) (by norm_num) (by norm_num)
      (by norm_num [abs_lt]) (by norm_num [abs_lt])]
    norm_num
  have h3 : toFloat32 (6004799503160661 / 36028797018963968)
      = some (11184811 / 67108864) := by
    rw [toFloat32_eq _ (-3) 11184811 (by norm_num) (by norm_num) (by norm_num)
      (by norm_num [abs_lt]) (by norm_num [abs_lt])]
    norm_num
  have h0 : ((3 : ℕ) : ℚ) ≠ 0 := by norm_num
  simp only [uvCoordDouble, h1, Option.some_bind, doubleDiv, if_neg h0, h2, h3]

/-- In a texture of side 4 the coordinates of column 1 and row 2 are binary32 numbers
and are held as they are. -/
theorem stored_uvCoord_four :
    (uvCoordDouble 4 1).bind toFloat32 = some 0.375
    ∧ (uvCoordDouble 4 2).bind toFloat32 = some 0.625 := by
  have h0 : ((4 : ℕ) : ℚ) ≠ 0 := by norm_num
  have a1 : toDouble (((1 : ℕ) : ℚ) + 0.5) = some (3 / 2) := by
    rw [toDouble_eq _ 0 6755399441055744 (by norm_num) (by norm_num) (by norm_num)
      (by norm_num [abs_lt]) (by norm_num [abs_lt])]
    norm_num
  have a2 : toDouble ((3 / 2 : ℚ) / ((4 : ℕ) : ℚ)) = some (3 / 8) := by
    rw [toDouble_eq _ (-2) 6755399441055744 (by norm_num) (by norm_num) (by norm_num)
      (by norm_num [abs_lt]) (by norm_num [abs_lt])]
    norm_num
  have a3 : toFloat32 (3 / 8) = some 0.375 := by
    rw [toFloat32_eq _ (-2) 12582912 (by norm_num) (by norm_num) (by norm_num)
      (by norm_num [abs_lt]) (by norm_num [abs_lt])]
    norm_num
  have b1 : toDouble (((2 : ℕ) : ℚ) + 0.5) = some (5 / 2) := by
    rw [toDouble_eq _ 1 5629499534213120 (by norm_num) (by norm_num) (by norm_num)
      (by norm_num [abs_lt]) (by norm_num [abs_lt])]
    norm_num
  have b2 : toDouble ((5 / 2 : ℚ) / ((4 : ℕ) : ℚ)) = some (5 / 8) := by
    rw [toDouble_eq _ (-1) 5629499534213120 (by norm_num) (by norm_num) (by norm_num)
      (by norm_num [abs_lt]) (by norm_num [abs_lt])]
    norm_num
  have b3 : toFloat32 (5 / 8) = some 0.625 := by
    rw [toFloat32_eq _ (-1) 10485760 (by norm_num) (by norm_num) (by norm_num)
      (by norm_num [abs_lt]) (by norm_num [abs_lt])]
    norm_num
  constructor
  · simp only [uvCoordDouble, a1, Option.some_bind, doubleDiv, if_neg h0, a2, a3]
  · simp only [uvCoordDouble, b1, Option.some_bind, doubleDiv, if_neg h0, b2, b3]

theorem texelIndex_lt {size y x : Nat} (hy : y < size) (hx : x < size) :
    texelIndex size y x < size * size := by
  unfold texelIndex
  have h1 : y * size ≤ (size - 1) * size := Nat.mul_le_mul_right size (by omega)
  have h2 : (size - 1) * size + size = size * size := by
    rw [Nat.sub_mul, Nat.one_mul]
    have : size ≤ size * size := Nat.le_mul_of_pos_left size (by omega)
    omega
  omega

theorem texelIndex_last {size : Nat} (hs : 0 < size) :
    texelIndex size (size - 1) (size - 1) + 1 = size * size := by
  unfold texelIndex
  have h2 : (size - 1) * size + size = size * size := by
    rw [Nat.sub_mul, Nat.one_mul]
    have : size ≤ size * size := Nat.le_mul_of_pos_left size hs
    omega
  omega

theorem fillBody_out_of_range (size : Nat) (random : Nat → ℚ) (y x count : Nat)
    (st : FillState) (huv : st.particlesUvArray.length = count * 2)
    (hsz : st.sizesArray.length = count) (h : count ≤ texelIndex size y x) :
    (fillBody size random y x st).particlesUvArray = st.particlesUvArray
    ∧ (fillBody size random y x st).sizesArray = st.sizesArray := by
  unfold fillBody
  simp only
  rw [Float32Array.write_of_le st.particlesUvArray _ _ (by omega),
    Float32Array.write_of_le st.particlesUvArray _ _ (by omega),
    Float32Array.write_of_le st.sizesArray _ _ (by omega)]
  exact ⟨rfl, rfl⟩

theorem tick_gpgpu (shader : ℚ → Float32Array → Float32Array) (t : ℚ) (s : State) :
    (tick shader t s).gpgpu.current = s.gpgpu.writeTarget
    ∧ (tick shader t s).gpgpu.target s.gpgpu.writeTarget
        = shader t (s.gpgpu.target s.gpgpu.current)
    ∧ (tick shader t s).gpgpu.target s.gpgpu.current = s.gpgpu.target s.gpgpu.current
    ∧ (tick shader t s).uParticlesTexture = some s.gpgpu.writeTarget
    ∧ (tick shader t s).frame = some (shader t (s.gpgpu.target s.gpgpu.current)) := by
  rcases s with ⟨_, _, _, _, _, _, _, _, _, _, _, ⟨a, b, cur, u⟩, _, _, _, _, _⟩
  cases cur <;>
    simp [tick, render, rebind, computeStep, setUTime, Computation.compute,
      Computation.writeTarget, Computation.getCurrentRenderTarget, Computation.target,
      Buffer.other]

theorem Buffer.other_ne (b : Buffer) : b.other ≠ b := by
  cases b <;> simp [Buffer.other]

theorem runTicks_current (shader : ℚ → Float32Array → Float32Array) (times : List ℚ)
    (s : State) :
    (runTicks shader times s).gpgpu.target (runTicks shader times s).gpgpu.current
      = simulate shader times (s.gpgpu.target s.gpgpu.current) := by
  induction times generalizing s with
  | nil => rfl
  | cons t ts ih =>
    have hstep : runTicks shader (t :: ts) s = runTicks shader ts (tick shader t s) := rfl
    have hsim : simulate shader (t :: ts) (s.gpgpu.target s.gpgpu.current)
        = simulate shader ts (shader t (s.gpgpu.target s.gpgpu.current)) := rfl
    obtain ⟨h1, h2, _, _, _⟩ := tick_gpgpu shader t s
    rw [hstep, hsim, ih (tick shader t s), h1, h2]

theorem simulate_append (shader : ℚ → Float32Array → Float32Array) (times : List ℚ) (t : ℚ)
    (initial : Float32Array) :
    simulate shader (times ++ [t]) initial = shader t (simulate shader times initial) := by
  simp [simulate, List.foldl_append]

/-! ## Claims -/

/-- C1: for every particle count above zero, `gpgpu.size` is the least natural number
whose square reaches the count: its square is at least the count, the square of its
predecessor is below the count, and no smaller side suffices.  A count of 10 gives
side 4, and a count of 16 gives side 4 with no padding texel. -/
theorem gpgpuSize_minimal (count : Nat) (h : 0 < count) :
    gpgpuSize count = ⌈Real.sqrt (count : ℝ)⌉₊
    ∧ count ≤ gpgpuSize count * gpgpuSize count
    ∧ (gpgpuSize count - 1) * (gpgpuSize count - 1) < count
    ∧ (∀ s : Nat, count ≤ s * s → gpgpuSize count ≤ s)
    ∧ gpgpuSize 10 = 4
    ∧ gpgpuSize 16 = 4
    ∧ gpgpuSize 16 * gpgpuSize 16 - 16 = 0 := by
  have e10 : gpgpuSize 10 = 4 := ceilSqrt_eq_of_bounds (by decide) (by decide)
  have e16 : gpgpuSize 16 = 4 := ceilSqrt_eq_of_bounds (by decide) (by decide)
  refine ⟨ceilSqrt_eq_ceil_real_sqrt count, ceilSqrt_sq_ge count, ceilSqrt_pred_sq_lt h,
    fun s hs => ceilSqrt_le_of_le_sq hs, e10, e16, ?_⟩
  rw [e16]

theorem gpgpuSize_minimal_witness :
    0 < 10
    ∧ (gpgpuSize 10 = ⌈Real.sqrt ((10 : ℕ) : ℝ)⌉₊
      ∧ 10 ≤ gpgpuSize 10 * gpgpuSize 10
      ∧ (gpgpuSize 10 - 1) * (gpgpuSize 10 - 1) < 10
      ∧ (∀ s : Nat, 10 ≤ s * s → gpgpuSize 10 ≤ s)
      ∧ gpgpuSize 10 = 4
      ∧ gpgpuSize 16 = 4
      ∧ gpgpuSize 16 * gpgpuSize 16 - 16 = 0) :=
  ⟨by decide, gpgpuSize_minimal 10 (by decide)⟩

/-- C2: for every count, every position array of at least `3 * count` entries and every
initial texture buffer of `4 * size * size` entries, after the encoding loop texel `i`
below the count holds the three position components of particle `i` and a zero in its
fourth channel, and every entry at an index from `4 * count` on still holds the value
it had before the loop. -/
theorem encodeLoop_texels (count : Nat) (position data : Float32Array)
    (hpos : 3 * count ≤ position.length)
    (hdata : data.length = 4 * gpgpuSize count * gpgpuSize count) :
    (∀ i, i < count →
        (encodeLoop count position data)[4 * i]? = position[3 * i]?
        ∧ (encodeLoop count position data)[4 * i + 1]? = position[3 * i + 1]?
        ∧ (encodeLoop count position data)[4 * i + 2]? = position[3 * i + 2]?
        ∧ (encodeLoop count position data)[4 * i + 3]? = some (JSNum.num 0)
        ∧ 3 * i + 2 < position.length)
    ∧ (∀ j, 4 * count ≤ j → (encodeLoop count position data)[j]? = data[j]?) := by
  have hcap : count * 4 ≤ data.length := by
    have := ceilSqrt_sq_ge count
    unfold gpgpuSize at hdata
    rw [hdata, Nat.mul_assoc]
    omega
  obtain ⟨_, hin, hout⟩ := encodeLoop_invariant position data count hcap
  refine ⟨?_, fun j hj => hout j (by omega)⟩
  intro i hi
  obtain ⟨a0, a1, a2, a3⟩ := hin i hi
  have e : 4 * i = i * 4 := Nat.mul_comm 4 i
  have e3 : 3 * i = i * 3 := Nat.mul_comm 3 i
  rw [e, e3]
  refine ⟨?_, ?_, ?_, a3, by omega⟩
  · rw [a0, Float32Array.getElem?_read _ _ (by omega)]
  · rw [a1, Float32Array.getElem?_read _ _ (by omega)]
  · rw [a2, Float32Array.getElem?_read _ _ (by omega)]

theorem encodeLoop_texels_witness :
    3 * 2 ≤ ([JSNum.num 1, JSNum.num 2, JSNum.num 3, JSNum.num 4, JSNum.num 5, JSNum.num 6]
        : Float32Array).length
    ∧ (Float32Array.alloc 16).length = 4 * gpgpuSize 2 * gpgpuSize 2
    ∧ ((∀ i, i < 2 →
        (encodeLoop 2 [JSNum.num 1, JSNum.num 2, JSNum.num 3, JSNum.num 4, JSNum.num 5,
            JSNum.num 6] (Float32Array.alloc 16))[4 * i]?
          = ([JSNum.num 1, JSNum.num 2, JSNum.num 3, JSNum.num 4, JSNum.num 5, JSNum.num 6]
              : Float32Array)[3 * i]?
        ∧ (encodeLoop 2 [JSNum.num 1, JSNum.num 2, JSNum.num 3, JSNum.num 4, JSNum.num 5,
            JSNum.num 6] (Float32Array.alloc 16))[4 * i + 1]?
          = ([JSNum.num 1, JSNum.num 2, JSNum.num 3, JSNum.num 4, JSNum.num 5, JSNum.num 6]
              : Float32Array)[3 * i + 1]?
        ∧ (encodeLoop 2 [JSNum.num 1, JSNum.num 2, JSNum.num 3, JSNum.num 4, JSNum.num 5,
            JSNum.num 6] (Float32Array.alloc 16))[4 * i + 2]?
          = ([JSNum.num 1, JSNum.num 2, JSNum.num 3, JSNum.num 4, JSNum.num 5, JSNum.num 6]
              : Float32Array)[3 * i + 2]?
        ∧ (encodeLoop 2 [JSNum.num 1, JSNum.num 2, JSNum.num 3, JSNum.num 4, JSNum.num 5,
            JSNum.num 6] (Float32Array.alloc 16))[4 * i + 3]? = some (JSNum.num 0)
        ∧ 3 * i + 2 < ([JSNum.num 1, JSNum.num 2, JSNum.num 3, JSNum.num 4, JSNum.num 5,
            JSNum.num 6] : Float32Array).length)
      ∧ (∀ j, 4 * 2 ≤ j →
        (encodeLoop 2 [JSNum.num 1, JSNum.num 2, JSNum.num 3, JSNum.num 4, JSNum.num 5,
            JSNum.num 6] (Float32Array.alloc 16))[j]? = (Float32Array.alloc 16)[j]?)) :=
  ⟨by decide, by norm_num [gpgpuSize, ceilSqrt, Float32Array.alloc],
    encodeLoop_texels 2 [JSNum.num 1, JSNum.num 2, JSNum.num 3, JSNum.num 4, JSNum.num 5,
      JSNum.num 6] (Float32Array.alloc 16) (by decide)
      (by norm_num [gpgpuSize, ceilSqrt, Float32Array.alloc])⟩

/-- C3 as stated fails: for a count of 5 the side is 3 and particle 0 has `x = 0`, so
the claim puts `0.5 / 3`, one sixth, at position 0 of the UV array; the array holds the
binary32 number 11184811 / 67108864 (0.16666667163...) instead. -/
theorem stored_uv_inexact_at_count_five :
    (fillArraysRounded 5 (fun _ => 0)).particlesUvArray[2 * 0]?
        = some (some (11184811 / 67108864))
    ∧ (fillArraysRounded 5 (fun _ => 0)).particlesUvArray[2 * 0]?
        ≠ some (some ((((0 % gpgpuSize 5 : ℕ) : ℚ) + 0.5) / (gpgpuSize 5 : ℚ))) := by
  have e5 : gpgpuSize 5 = 3 := ceilSqrt_eq_of_bounds (by decide) (by decide)
  have h := (fillArraysRounded_uv 5 (fun _ => 0) 0 (by decide)).1
  rw [e5] at h
  have hx : 0 % 3 = 0 := rfl
  rw [hx, stored_uvCoord_three_zero] at h
  refine ⟨h, ?_⟩
  rw [h, e5]
  norm_num

/-- C3, amended: for every count above zero and every particle index `i` below the
count, after the nested loop the UV array holds at positions `2 * i` and `2 * i + 1` the
pair `((x + 0.5) / size, (y + 0.5) / size)` with `x = i % size` and `y = i / size`, each
component computed in binary64 and rounded to binary32 by the store; for a count of 10,
index 9 gets `(0.375, 0.625)`. -/
theorem particlesUvArray_rounded_entries (count : Nat) (random : Nat → ℚ) (i : Nat)
    (_hcount : 0 < count) (hi : i < count) :
    (fillArraysRounded count random).particlesUvArray[2 * i]?
        = some (((toDouble (((i % gpgpuSize count : ℕ) : ℚ) + 0.5)).bind
            (fun a => doubleDiv a (gpgpuSize count : ℚ))).bind toFloat32)
    ∧ (fillArraysRounded count random).particlesUvArray[2 * i + 1]?
        = some (((toDouble (((i / gpgpuSize count : ℕ) : ℚ) + 0.5)).bind
            (fun a => doubleDiv a (gpgpuSize count : ℚ))).bind toFloat32)
    ∧ (fillArraysRounded 10 random).particlesUvArray[2 * 9]? = some (some (0.375 : ℚ))
    ∧ (fillArraysRounded 10 random).particlesUvArray[2 * 9 + 1]? = some (some (0.625 : ℚ)) := by
  have e10 : gpgpuSize 10 = 4 := ceilSqrt_eq_of_bounds (by decide) (by decide)
  obtain ⟨hx, hy⟩ := fillArraysRounded_uv count random i hi
  obtain ⟨hx9, hy9⟩ := fillArraysRounded_uv 10 random 9 (by decide)
  rw [e10] at hx9 hy9
  have m9 : 9 % 4 = 1 := rfl
  have d9 : 9 / 4 = 2 := rfl
  rw [m9, stored_uvCoord_four.1] at hx9
  rw [d9, stored_uvCoord_four.2] at hy9
  exact ⟨hx, hy, hx9, hy9⟩

theorem particlesUvArray_rounded_entries_witness :
    0 < 10 ∧ 9 < 10
    ∧ (fillArraysRounded 10 (fun _ => 0)).particlesUvArray[2 * 9]?
        = some (((toDouble (((9 % gpgpuSize 10 : ℕ) : ℚ) + 0.5)).bind
            (fun a => doubleDiv a (gpgpuSize 10 : ℚ))).bind toFloat32)
    ∧ (fillArraysRounded 10 (fun _ => 0)).particlesUvArray[2 * 9 + 1]?
        = some (((toDouble (((9 / gpgpuSize 10 : ℕ) : ℚ) + 0.5)).bind
            (fun a => doubleDiv a (gpgpuSize 10 : ℚ))).bind toFloat32)
    ∧ (fillArraysRounded 10 (fun _ => 0)).particlesUvArray[2 * 9]? = some (some (0.375 : ℚ))
    ∧ (fillArraysRounded 10 (fun _ => 0)).particlesUvArray[2 * 9 + 1]?
        = some (some (0.625 : ℚ)) :=
  ⟨by decide, by decide,
    particlesUvArray_rounded_entries 10 (fun _ => 0) 9 (by decide) (by decide)⟩

/-- C4: for every count above zero and every particle index `i` below the count, the UV
pair `(u, v)` of particle `i` leads back to its texel: `floor (u * size) = i % size` and
`floor (v * size) = i / size`, in exact rational arithmetic. -/
theorem vertexUv_round_trip (count : Nat) (random : Nat → ℚ) (i : Nat)
    (hcount : 0 < count) (hi : i < count) :
    ∃ u v : ℚ, vertexUv (fillArrays count random).particlesUvArray i = some (u, v)
      ∧ ⌊u * (gpgpuSize count : ℚ)⌋ = ((i % gpgpuSize count : ℕ) : ℤ)
      ∧ ⌊v * (gpgpuSize count : ℚ)⌋ = ((i / gpgpuSize count : ℕ) : ℤ) := by
  have hs : 0 < gpgpuSize count := ceilSqrt_pos hcount
  exact ⟨_, _, fillArrays_vertexUv count random i hi,
    floor_uvCoord_mul _ _ hs, floor_uvCoord_mul _ _ hs⟩

theorem vertexUv_round_trip_witness :
    0 < 10 ∧ 9 < 10
    ∧ ∃ u v : ℚ, vertexUv (fillArrays 10 (fun _ => 0)).particlesUvArray 9 = some (u, v)
      ∧ ⌊u * (gpgpuSize 10 : ℚ)⌋ = ((9 % gpgpuSize 10 : ℕ) : ℤ)
      ∧ ⌊v * (gpgpuSize 10 : ℚ)⌋ = ((9 / gpgpuSize 10 : ℕ) : ℤ) :=
  ⟨by decide, by decide, vertexUv_round_trip 10 (fun _ => 0) 9 (by decide) (by decide)⟩

/-- C5: at the draw call of every tick `k ≥ 1` (the tick at clock reading `t` that
follows the ticks at the readings `times`), the uniform `uParticlesTexture` refers to the
target that this tick's compute pass wrote, which is the current target after the flip;
the frame samples that pass's output, the program applied `k` times to the initial
texture, while the output of tick `k - 1` sits in the other target; two consecutive
ticks never bind the same target; within a tick the order is set `uTime`, compute,
rebind, render. -/
theorem tick_binds_fresh_target (shader : ℚ → Float32Array → Float32Array) (s0 : State)
    (times : List ℚ) (t : ℚ) :
    (tick shader t (runTicks shader times s0)).uParticlesTexture
        = some (runTicks shader times s0).gpgpu.writeTarget
    ∧ (tick shader t (runTicks shader times s0)).uParticlesTexture
        = some (tick shader t (runTicks shader times s0)).gpgpu.getCurrentRenderTarget
    ∧ (tick shader t (runTicks shader times s0)).frame
        = some ((tick shader t (runTicks shader times s0)).gpgpu.target
            (runTicks shader times s0).gpgpu.writeTarget)
    ∧ (tick shader t (runTicks shader times s0)).frame
        = some (simulate shader (times ++ [t]) (s0.gpgpu.target s0.gpgpu.current))
    ∧ (tick shader t (runTicks shader times s0)).gpgpu.target
          (runTicks shader times s0).gpgpu.writeTarget.other
        = simulate shader times (s0.gpgpu.target s0.gpgpu.current)
    ∧ (∀ (s : State) (t1 t2 : ℚ),
        (tick shader t2 (tick shader t1 s)).uParticlesTexture
          ≠ (tick shader t1 s).uParticlesTexture)
    ∧ (∀ (s : State),
        tick shader t s
          = render (rebind (computeStep shader
              (setUTime t { s with previousTime := t })))) := by
  obtain ⟨h1, h2, h3, h4, h5⟩ := tick_gpgpu shader t (runTicks shader times s0)
  have hcur := runTicks_current shader times s0
  have hother : (runTicks shader times s0).gpgpu.writeTarget.other
      = (runTicks shader times s0).gpgpu.current := by
    unfold Computation.writeTarget
    cases (runTicks shader times s0).gpgpu.current <;> rfl
  refine ⟨h4, ?_, ?_, ?_, ?_, ?_, fun _ => rfl⟩
  · rw [h4, Computation.getCurrentRenderTarget, h1]
  · rw [h5, h2]
  · rw [h5, simulate_append, hcur]
  · rw [hother, h3, hcur]
  · intro s t1 t2
    obtain ⟨c1, _, _, b1, _⟩ := tick_gpgpu shader t1 s
    obtain ⟨_, _, _, b2, _⟩ := tick_gpgpu shader t2 (tick shader t1 s)
    rw [b2, b1]
    unfold Computation.writeTarget
    rw [c1]
    intro h
    exact Buffer.other_ne _ (Option.some.inj h)

/-- C6 as stated fails: at a device pixel ratio of 3 the handler clamps the ratio to 2,
so a window of 800 by 600 yields the uniform (1600, 1200), not (2400, 1800). -/
theorem clamped_uResolution_at_ratio_three :
    (resize { innerWidth := 800, innerHeight := 600, devicePixelRatio := 3 }
        (setup { innerWidth := 800, innerHeight := 600, devicePixelRatio := 1 } 1
          [JSNum.num 0, JSNum.num 0, JSNum.num 0] (Float32Array.alloc 4)
          (fun _ => 0))).uResolution = (1600, 1200)
    ∧ (resize { innerWidth := 800, innerHeight := 600, devicePixelRatio := 3 }
        (setup { innerWidth := 800, innerHeight := 600, devicePixelRatio := 1 } 1
          [JSNum.num 0, JSNum.num 0, JSNum.num 0] (Float32Array.alloc 4)
          (fun _ => 0))).uResolution ≠ (800 * 3, 600 * 3) := by
  constructor
  · simp only [resize]
    norm_num
  · simp only [resize]
    norm_num

/-- C6, amended: for every window width `w`, height `h` and device pixel ratio `r`, after
the resize handler the uniform `uResolution` equals `(w * min r 2, h * min r 2)`, which
is `(w * r, h * r)` whenever `r ≤ 2`; resizing from (800, 600, ratio 1) to
(1600, 1200, ratio 2) changes the uniform from (800, 600) to (3200, 2400). -/
theorem resize_uResolution (w : Window) (s : State) :
    (resize w s).uResolution
        = (w.innerWidth * min w.devicePixelRatio 2, w.innerHeight * min w.devicePixelRatio 2)
    ∧ (w.devicePixelRatio ≤ 2 →
        (resize w s).uResolution
          = (w.innerWidth * w.devicePixelRatio, w.innerHeight * w.devicePixelRatio))
    ∧ (∀ (count : Nat) (position texture : Float32Array) (random : Nat → ℚ),
        (setup { innerWidth := 800, innerHeight := 600, devicePixelRatio := 1 }
            count position texture random).uResolution = (800, 600)
        ∧ (resize { innerWidth := 1600, innerHeight := 1200, devicePixelRatio := 2 }
            (setup { innerWidth := 800, innerHeight := 600, devicePixelRatio := 1 }
              count position texture random)).uResolution = (3200, 2400)) := by
  refine ⟨rfl, ?_, ?_⟩
  · intro h
    simp only [resize, min_eq_left h]
  · intro count position texture random
    constructor
    · simp only [setup, initialSizes]
      norm_num
    · simp only [resize]
      norm_num

theorem resize_uResolution_witness :
    ((3 / 2 : ℚ) ≤ 2)
    ∧ (resize { innerWidth := 800, innerHeight := 600, devicePixelRatio := 3 / 2 }
        (setup { innerWidth := 800, innerHeight := 600, devicePixelRatio := 1 } 1
          [JSNum.num 0, JSNum.num 0, JSNum.num 0] (Float32Array.alloc 4)
          (fun _ => 0))).uResolution = (800 * (3 / 2), 600 * (3 / 2)) :=
  ⟨by norm_num,
    (resize_uResolution { innerWidth := 800, innerHeight := 600, devicePixelRatio := 3 / 2 }
      (setup { innerWidth := 800, innerHeight := 600, devicePixelRatio := 1 } 1
        [JSNum.num 0, JSNum.num 0, JSNum.num 0] (Float32Array.alloc 4)
        (fun _ => 0))).2.1 (by norm_num)⟩

/-- C7: for every program state and every resize event, the resize handler leaves the
particle count, the per-particle UV array, the draw range and the compute-domain size
unchanged; it changes only `sizes`, the uniform `uResolution`, the camera aspect and
projection, and the renderer size and pixel ratio. -/
theorem resize_frame (w : Window) (s : State) :
    (resize w s).count = s.count
    ∧ (resize w s).particlesUvArray = s.particlesUvArray
    ∧ (resize w s).drawRange = s.drawRange
    ∧ (resize w s).gpgpuSize = s.gpgpuSize
    ∧ (resize w s).gpgpu = s.gpgpu
    ∧ resize w s =
        { s with
          sizes := (resize w s).sizes
          uResolution := (resize w s).uResolution
          cameraAspect := (resize w s).cameraAspect
          projectionAspect := (resize w s).projectionAspect
          rendererSize := (resize w s).rendererSize
          rendererPixelRatio := (resize w s).rendererPixelRatio } :=
  ⟨rfl, rfl, rfl, rfl, rfl, rfl⟩

/-- C8: for every count above zero the draw range is exactly the count, and no drawn
particle refers to a padding texel: for every `i` below the count the texel index
`floor (v * size) * size + floor (u * size)` addressed by the UV of particle `i` equals
`i`, hence lies below the count, and distinct particles address distinct texels. -/
theorem drawn_particles_address_own_texel (w : Window) (count : Nat)
    (position texture : Float32Array) (random : Nat → ℚ) (hcount : 0 < count) :
    (setup w count position texture random).drawRange = (0, count)
    ∧ (∀ i, i < count →
        ∃ u v : ℚ,
          vertexUv (setup w count position texture random).particlesUvArray i = some (u, v)
          ∧ ⌊v * (gpgpuSize count : ℚ)⌋ * (gpgpuSize count : ℤ)
              + ⌊u * (gpgpuSize count : ℚ)⌋ = (i : ℤ)
          ∧ ⌊v * (gpgpuSize count : ℚ)⌋ * (gpgpuSize count : ℤ)
              + ⌊u * (gpgpuSize count : ℚ)⌋ < (count : ℤ))
    ∧ (∀ i j (ui vi uj vj : ℚ), i < count → j < count → i ≠ j →
        vertexUv (setup w count position texture random).particlesUvArray i
          = some (ui, vi) →
        vertexUv (setup w count position texture random).particlesUvArray j
          = some (uj, vj) →
        ⌊vi * (gpgpuSize count : ℚ)⌋ * (gpgpuSize count : ℤ)
            + ⌊ui * (gpgpuSize count : ℚ)⌋
          ≠ ⌊vj * (gpgpuSize count : ℚ)⌋ * (gpgpuSize count : ℤ)
            + ⌊uj * (gpgpuSize count : ℚ)⌋) := by
  have hs : 0 < gpgpuSize count := ceilSqrt_pos hcount
  have harr : (setup w count position texture random).particlesUvArray
      = (fillArrays count random).particlesUvArray := rfl
  have key : ∀ i, i < count →
      ⌊uvCoord (gpgpuSize count) (i / gpgpuSize count) * (gpgpuSize count : ℚ)⌋
          * (gpgpuSize count : ℤ)
        + ⌊uvCoord (gpgpuSize count) (i % gpgpuSize count) * (gpgpuSize count : ℚ)⌋
        = (i : ℤ) := by
    intro i _
    rw [floor_uvCoord_mul _ _ hs, floor_uvCoord_mul _ _ hs]
    have h2 : ((i / gpgpuSize count * gpgpuSize count + i % gpgpuSize count : ℕ) : ℤ)
        = (i : ℤ) := by rw [Nat.div_add_mod']
    rw [Nat.cast_add, Nat.cast_mul] at h2
    exact h2
  rw [harr]
  refine ⟨rfl, ?_, ?_⟩
  · intro i hi
    refine ⟨_, _, fillArrays_vertexUv count random i hi, key i hi, ?_⟩
    rw [key i hi]
    exact_mod_cast hi
  · intro i j ui vi uj vj hi hj hij hui huj
    rw [fillArrays_vertexUv count random i hi] at hui
    rw [fillArrays_vertexUv count random j hj] at huj
    have ei := Prod.mk.inj (Option.some.inj hui)
    have ej := Prod.mk.inj (Option.some.inj huj)
    rw [← ei.1, ← ei.2, ← ej.1, ← ej.2, key i hi, key j hj]
    exact_mod_cast hij

theorem drawn_particles_address_own_texel_witness :
    0 < 10
    ∧ ((setup { innerWidth := 800, innerHeight := 600, devicePixelRatio := 1 } 10
            (Float32Array.alloc 30) (Float32Array.alloc 64) (fun _ => 0)).drawRange = (0, 10)
      ∧ (∀ i, i < 10 →
          ∃ u v : ℚ,
            vertexUv (setup { innerWidth := 800, innerHeight := 600, devicePixelRatio := 1 } 10
            (Float32Array.alloc 30) (Float32Array.alloc 64) (fun _ => 0)).particlesUvArray i = some (u, v)
            ∧ ⌊v * (gpgpuSize 10 : ℚ)⌋ * (gpgpuSize 10 : ℤ)
                + ⌊u * (gpgpuSize 10 : ℚ)⌋ = (i : ℤ)
            ∧ ⌊v * (gpgpuSize 10 : ℚ)⌋ * (gpgpuSize 10 : ℤ)
                + ⌊u * (gpgpuSize 10 : ℚ)⌋ < ((10 : ℕ) : ℤ))
      ∧ (∀ i j (ui vi uj vj : ℚ), i < 10 → j < 10 → i ≠ j →
          vertexUv (setup { innerWidth := 800, innerHeight := 600, devicePixelRatio := 1 } 10
            (Float32Array.alloc 30) (Float32Array.alloc 64) (fun _ => 0)).particlesUvArray i = some (ui, vi) →
          vertexUv (setup { innerWidth := 800, innerHeight := 600, devicePixelRatio := 1 } 10
            (Float32Array.alloc 30) (Float32Array.alloc 64) (fun _ => 0)).particlesUvArray j = some (uj, vj) →
          ⌊vi * (gpgpuSize 10 : ℚ)⌋ * (gpgpuSize 10 : ℤ)
              + ⌊ui * (gpgpuSize 10 : ℚ)⌋
            ≠ ⌊vj * (gpgpuSize 10 : ℚ)⌋ * (gpgpuSize 10 : ℤ)
              + ⌊uj * (gpgpuSize 10 : ℚ)⌋)) :=
  ⟨by decide,
    drawn_particles_address_own_texel
      { innerWidth := 800, innerHeight := 600, devicePixelRatio := 1 } 10
      (Float32Array.alloc 30) (Float32Array.alloc 64) (fun _ => 0) (by decide)⟩

/-- C9: for a mesh of zero vertices the setup produces a zero-sized pipeline that does
nothing: the side is 0, the encoding loop runs no iteration and leaves the texture
buffer as it was, the UV / size loop runs no iteration and makes no call of
`Math.random`, the UV and size arrays are empty and the draw range is 0. -/
theorem setup_zero_count (w : Window) (position texture : Float32Array)
    (random : Nat → ℚ) :
    (setup w 0 position texture random).gpgpuSize = 0
    ∧ encodeIterations 0 = []
    ∧ (setup w 0 position texture random).baseParticlesTexture = texture
    ∧ fillIterations (setup w 0 position texture random).gpgpuSize = []
    ∧ (fillArrays 0 random).randomCalls = 0
    ∧ (setup w 0 position texture random).particlesUvArray = []
    ∧ (setup w 0 position texture random).sizesArray = []
    ∧ (setup w 0 position texture random).drawRange = (0, 0) := by
  have h0 : gpgpuSize 0 = 0 := by simp [gpgpuSize, ceilSqrt]
  have hf : fillArrays 0 random
      = { particlesUvArray := [], sizesArray := [], randomCalls := 0 } := by
    simp [fillArrays, h0, fillLoop, Float32Array.alloc]
  refine ⟨h0, rfl, rfl, ?_, ?_, ?_, ?_, rfl⟩
  · show fillIterations (gpgpuSize 0) = []
    rw [h0]
    rfl
  · rw [hf]
  · show (fillArrays 0 random).particlesUvArray = []
    rw [hf]
  · show (fillArrays 0 random).sizesArray = []
    rw [hf]

/-- C10: the UV / size fill loop runs its body for all `size * size` texel indices while
its arrays have `2 * count` and `count` entries.  Every index it stores to lies within
the arrays exactly when `count = size * size`.  For every other count above zero some
iteration stores at UV indices from `2 * count` on and at a size index from `count` on;
every such iteration returns both arrays as they were, and after the loop the arrays
still have `2 * count` and `count` entries and hold, for every particle below the count,
the values stored by that particle's own iteration. -/
theorem fillLoop_store_bounds (count : Nat) (random : Nat → ℚ) :
    (∀ st : FillState,
      fillLoop (gpgpuSize count) random st
        = (fillIterations (gpgpuSize count)).foldl
            (fun acc p => fillBody (gpgpuSize count) random p.1 p.2 acc) st)
    ∧ ((∀ y x, (y, x) ∈ fillIterations (gpgpuSize count) →
          texelIndex (gpgpuSize count) y x * 2 + 0 < count * 2
          ∧ texelIndex (gpgpuSize count) y x * 2 + 1 < count * 2
          ∧ texelIndex (gpgpuSize count) y x < count)
        ↔ count = gpgpuSize count * gpgpuSize count)
    ∧ (0 < count → count ≠ gpgpuSize count * gpgpuSize count →
        ∃ y x, (y, x) ∈ fillIterations (gpgpuSize count)
          ∧ count * 2 ≤ texelIndex (gpgpuSize count) y x * 2 + 0
          ∧ count * 2 ≤ texelIndex (gpgpuSize count) y x * 2 + 1
          ∧ count ≤ texelIndex (gpgpuSize count) y x)
    ∧ (∀ (y x : Nat) (st : FillState),
        st.particlesUvArray.length = count * 2 → st.sizesArray.length = count →
        count ≤ texelIndex (gpgpuSize count) y x →
        (fillBody (gpgpuSize count) random y x st).particlesUvArray = st.particlesUvArray
        ∧ (fillBody (gpgpuSize count) random y x st).sizesArray = st.sizesArray)
    ∧ (fillArrays count random).particlesUvArray.length = count * 2
    ∧ (fillArrays count random).sizesArray.length = count
    ∧ (∀ i, i < count →
        (fillArrays count random).particlesUvArray[2 * i]?
          = some (JSNum.num (uvCoord (gpgpuSize count) (i % gpgpuSize count)))
        ∧ (fillArrays count random).particlesUvArray[2 * i + 1]?
          = some (JSNum.num (uvCoord (gpgpuSize count) (i / gpgpuSize count)))
        ∧ (fillArrays count random).sizesArray[i]? = some (JSNum.num (random i))) := by
  have hge := ceilSqrt_sq_ge count
  have hlast : 0 < gpgpuSize count →
      (gpgpuSize count - 1, gpgpuSize count - 1) ∈ fillIterations (gpgpuSize count) := by
    intro hs
    rw [mem_fillIterations]
    omega
  refine ⟨fun st => fillLoop_eq_foldl_iterations _ _ st, ⟨?_, ?_⟩, ?_,
    fun y x st huv hsz h => fillBody_out_of_range _ _ y x count st huv hsz h,
    (fillArrays_lengths count random).1, (fillArrays_lengths count random).2, ?_⟩
  · intro hall
    rcases Nat.eq_zero_or_pos (gpgpuSize count) with h0 | hs
    · unfold gpgpuSize at h0 ⊢
      rw [h0] at hge ⊢
      omega
    · have := (hall _ _ (hlast hs)).2.2
      have hl := texelIndex_last hs
      unfold gpgpuSize at this hl ⊢
      omega
  · intro heq y x hmem
    rw [mem_fillIterations] at hmem
    have := texelIndex_lt hmem.1 hmem.2
    omega
  · intro hcount hne
    have hs : 0 < gpgpuSize count := ceilSqrt_pos hcount
    have hl := texelIndex_last hs
    refine ⟨_, _, hlast hs, ?_, ?_, ?_⟩ <;>
    · unfold gpgpuSize at hl hne ⊢
      omega
  · intro i hi
    have hsz := (fillArrays_inv count random).sizes i (lt_of_lt_of_le hi hge)
      (by rw [Float32Array.length_alloc]; exact hi)
    rw [Nat.zero_add] at hsz
    exact ⟨(fillArrays_uv count random i hi).1, (fillArrays_uv count random i hi).2, hsz⟩

theorem fillLoop_store_bounds_witness :
    (0 < 10 ∧ 10 ≠ gpgpuSize 10 * gpgpuSize 10
      ∧ ∃ y x, (y, x) ∈ fillIterations (gpgpuSize 10)
          ∧ 10 * 2 ≤ texelIndex (gpgpuSize 10) y x * 2 + 0
          ∧ 10 * 2 ≤ texelIndex (gpgpuSize 10) y x * 2 + 1
          ∧ 10 ≤ texelIndex (gpgpuSize 10) y x)
    ∧ ((Float32Array.alloc (10 * 2)).length = 10 * 2
      ∧ (Float32Array.alloc 10).length = 10
      ∧ 10 ≤ texelIndex (gpgpuSize 10) 3 3
      ∧ (fillBody (gpgpuSize 10) (fun _ => 0) 3 3
            { particlesUvArray := Float32Array.alloc (10 * 2)
              sizesArray := Float32Array.alloc 10
              randomCalls := 15 }).particlesUvArray = Float32Array.alloc (10 * 2)
      ∧ (fillBody (gpgpuSize 10) (fun _ => 0) 3 3
            { particlesUvArray := Float32Array.alloc (10 * 2)
              sizesArray := Float32Array.alloc 10
              randomCalls := 15 }).sizesArray = Float32Array.alloc 10) :=
  ⟨⟨by decide, by norm_num [gpgpuSize, ceilSqrt],
    (fillLoop_store_bounds 10 (fun _ => 0)).2.2.1 (by decide)
      (by norm_num [gpgpuSize, ceilSqrt])⟩,
    by decide, by decide, by norm_num [gpgpuSize, ceilSqrt, texelIndex],
    (fillLoop_store_bounds 10 (fun _ => 0)).2.2.2.1 3 3
      { particlesUvArray := Float32Array.alloc (10 * 2)
        sizesArray := Float32Array.alloc 10
        randomCalls := 15 }
      (by decide) (by decide) (by norm_num [gpgpuSize, ceilSqrt, texelIndex])⟩

end FlowField
